import Mathlib

/-!
Shallow embedding of `src/mpod_control.py`: the channel registry, the command
sequencer (`configure` / `enable` / `disable` / `status`), the transport
command construction of `_snmp_cmd` (with its dry-run branch), the reply
normalization `trim_snmpget_output`, and the registry construction
`from_json`.  Python floats are modelled as rationals (no claim depends on
float rounding) and Python `str(...)` on a number as `toString`.
-/

namespace Mpod

/-- Kind of net-snmp program invoked by `_snmp_cmd` (`get`, `set` or `walk`). -/
inductive OpKind
  | get
  | set
  | walk
deriving DecidableEq

/-- One transport operation requested by the sequencer: the snmp program kind
together with the trailing argument strings the caller passes
(`snmpget_cmd` / `snmpset_cmd` forward them to `_snmp_cmd` as `*args`). -/
structure SnmpOp where
  kind : OpKind
  args : List String
deriving DecidableEq

/-- The `_channel` dataclass as produced by `from_json`: required fields
`mpod_name`, `voltage`, `current`; the optional JSON keys `rise_rate`,
`fall_rate` and `sense_rails` are read with `.get(key, None)`, so an absent
key becomes `None` (here `none`).  `sense_rails` is whatever JSON array was
given, hence a list of numbers of any length. -/
structure Channel where
  mpod_name : String
  voltage : ℚ
  current : ℚ
  rise_rate : Option ℚ
  fall_rate : Option ℚ
  sense_rails : Option (List ℚ)
deriving DecidableEq

/-- The sequencing-relevant state of an `mpod_control` object: crate metadata
and the insertion-ordered channel mapping (`self.channels.items()` order).
The transport-only state (install dir, MIBs dir, crate IP, `dry_run`) lives
in `RunCfg` below, mirroring the split between the sequencer methods, which
never consult it, and `_snmp_cmd`, which does. -/
structure Registry where
  module_type : String
  voltage_range : String
  channels : List (String × Channel)
deriving DecidableEq

/-- Selector test of `configure` / `enable` / `disable`: the loop body skips a
channel iff `uchan is not None and channel.mpod_name != uchan`. -/
def selects (uchan : Option String) (c : Channel) : Bool :=
  match uchan with
  | none => true
  | some u => c.mpod_name == u

/-- The channel sequence `configure` (and the switch loop of `enable`) visits:
`self.channels.items()` in registry (insertion) order, filtered by the
selector test. -/
def visited (reg : Registry) (uchan : Option String) : List (String × Channel) :=
  reg.channels.filter (fun nc => selects uchan nc.2)

/-- The channel sequence `disable` visits: `reversed(self.channels.items())`
filtered by the same selector test. -/
def disableVisited (reg : Registry) (uchan : Option String) : List (String × Channel) :=
  reg.channels.reverse.filter (fun nc => selects uchan nc.2)

/-- Stands for Python `str(...)` on a numeric configuration value.  Floats are
modelled as rationals, so the numeral rendering differs from CPython's
(e.g. `"5"` vs `"5.0"`); no claim depends on the rendering of a number. -/
def pyStr (q : ℚ) : String := toString q

/-- The nine parameters `status` reads per channel, in source order. -/
def statusParams : List String :=
  ["outputSwitch", "outputVoltage", "outputCurrent",
   "outputSupervisionMinSenseVoltage", "outputSupervisionMaxSenseVoltage",
   "outputVoltageRiseRate", "outputVoltageFallRate",
   "outputMeasurementTerminalVoltage", "outputMeasurementCurrent"]

/-- GET operations `status` issues for one channel with device name `m`:
`self.snmpget_cmd(f'{param}.{channel.mpod_name}', raw = raw)` for each of the
nine parameters. -/
def statusOpsFor (m : String) : List SnmpOp :=
  statusParams.map (fun p => ⟨.get, [p ++ "." ++ m]⟩)

/-- Supervision SETs of `configure`: emitted when
`channel.sense_rails is not None`, using `sense_rails[0]` and
`sense_rails[1]`.  (Python would raise `IndexError` on a list shorter than
two; the `getD` defaults stand in for that never-proved-about case, and every
theorem touching `sense_rails` assumes a two-element list.) -/
def senseOps (c : Channel) : List SnmpOp :=
  match c.sense_rails with
  | none => []
  | some rails =>
    [⟨.set, ["outputSupervisionMinSenseVoltage." ++ c.mpod_name, "F", pyStr (rails.getD 0 0)]⟩,
     ⟨.set, ["outputSupervisionMaxSenseVoltage." ++ c.mpod_name, "F", pyStr (rails.getD 1 0)]⟩]

/-- Rise-rate SET of `configure`: emitted when
`channel.rise_rate is not None and channel.rise_rate > 0`. -/
def riseOps (c : Channel) : List SnmpOp :=
  match c.rise_rate with
  | none => []
  | some r =>
    if r > 0 then [⟨.set, ["outputVoltageRiseRate." ++ c.mpod_name, "F", pyStr r]⟩] else []

/-- Fall-rate SET of `configure`: emitted when
`channel.fall_rate is not None and channel.fall_rate > 0`. -/
def fallOps (c : Channel) : List SnmpOp :=
  match c.fall_rate with
  | none => []
  | some r =>
    if r > 0 then [⟨.set, ["outputVoltageFallRate." ++ c.mpod_name, "F", pyStr r]⟩] else []

/-- Transport operations `configure` emits for one visited channel, in source
order: supervision rails (if set), target voltage, current limit, optional
rise and fall rates, then the read-back `self.status(name)` (which resolves
the logical name back to this very channel and issues its nine GETs). -/
def chanConfigOps (c : Channel) : List SnmpOp :=
  senseOps c ++
  [⟨.set, ["outputVoltage." ++ c.mpod_name, "F", pyStr c.voltage]⟩,
   ⟨.set, ["outputCurrent." ++ c.mpod_name, "F", pyStr c.current]⟩] ++
  riseOps c ++ fallOps c ++ statusOpsFor c.mpod_name

/-- The full transport-operation log of `configure(uchan)`. -/
def configureOps (reg : Registry) (uchan : Option String) : List SnmpOp :=
  (visited reg uchan).flatMap (fun nc => chanConfigOps nc.2)

/-- The switch-on loop of `enable`:
`self.snmpset_cmd(f'outputSwitch.{channel.mpod_name}', 'i', '1')` per visited
channel. -/
def switchOnOps (reg : Registry) (uchan : Option String) : List SnmpOp :=
  (visited reg uchan).map (fun nc => ⟨.set, ["outputSwitch." ++ nc.2.mpod_name, "i", "1"]⟩)

/-- The full transport-operation log of `enable(uchan)`: `self.configure(uchan)`
followed by the switch-on loop. -/
def enableOps (reg : Registry) (uchan : Option String) : List SnmpOp :=
  configureOps reg uchan ++ switchOnOps reg uchan

/-- The full transport-operation log of `disable(uchan)`.  Note the source
passes `f"outputSwitch.{channel.mpod_name} i 0"` as a single argument string
(unlike `enable`, which passes three separate arguments). -/
def disableOps (reg : Registry) (uchan : Option String) : List SnmpOp :=
  (disableVisited reg uchan).map (fun nc => ⟨.set, ["outputSwitch." ++ nc.2.mpod_name ++ " i 0"]⟩)

/-- The six object-name prefixes (dot included) of the SETs `configure` can
emit, in source order. -/
def configObjNames : List String :=
  ["outputSupervisionMinSenseVoltage.", "outputSupervisionMaxSenseVoltage.",
   "outputVoltage.", "outputCurrent.", "outputVoltageRiseRate.", "outputVoltageFallRate."]

/-- `op` is one of the Configure SETs of the channel with device name `d`:
a SET with float type tag `"F"` whose object name is one of the six
configure parameters indexed by `d`. -/
def ConfigSetFor (d : String) (op : SnmpOp) : Prop :=
  op.kind = OpKind.set ∧ op.args.getD 1 "" = "F" ∧
    ∃ o ∈ configObjNames, op.args.getD 0 "" = o ++ d

instance (d : String) (op : SnmpOp) : Decidable (ConfigSetFor d op) := by
  unfold ConfigSetFor; infer_instance

lemma senseOps_shape (c : Channel) : ∀ op ∈ senseOps c, op.args.getD 1 "" = "F" := by
  intro op h
  unfold senseOps at h
  cases hs : c.sense_rails with
  | none => rw [hs] at h; simp at h
  | some rails =>
    rw [hs] at h
    simp only [List.mem_cons, List.not_mem_nil, or_false] at h
    rcases h with h | h <;> subst h <;> rfl

lemma riseOps_shape (c : Channel) : ∀ op ∈ riseOps c, op.args.getD 1 "" = "F" := by
  intro op h
  unfold riseOps at h
  cases hr : c.rise_rate with
  | none => rw [hr] at h; simp at h
  | some r =>
    rw [hr] at h
    by_cases hpos : r > 0
    · simp only [hpos, if_true, List.mem_singleton] at h
      subst h; rfl
    · simp only [hpos, if_false] at h
      simp at h

lemma fallOps_shape (c : Channel) : ∀ op ∈ fallOps c, op.args.getD 1 "" = "F" := by
  intro op h
  unfold fallOps at h
  cases hr : c.fall_rate with
  | none => rw [hr] at h; simp at h
  | some r =>
    rw [hr] at h
    by_cases hpos : r > 0
    · simp only [hpos, if_true, List.mem_singleton] at h
      subst h; rfl
    · simp only [hpos, if_false] at h
      simp at h

lemma statusOpsFor_shape (m : String) : ∀ op ∈ statusOpsFor m, op.kind = OpKind.get := by
  intro op h
  unfold statusOpsFor at h
  simp only [List.mem_map] at h
  obtain ⟨p, -, rfl⟩ := h
  rfl

/-- Every operation `configure` emits is either a GET (the read-back) or a SET
with float type tag `"F"`. -/
lemma configureOps_tag (reg : Registry) (uchan : Option String) :
    ∀ op ∈ configureOps reg uchan, op.kind = OpKind.get ∨ op.args.getD 1 "" = "F" := by
  intro op hop
  rw [configureOps, List.mem_flatMap] at hop
  obtain ⟨nc, -, hop⟩ := hop
  rw [chanConfigOps] at hop
  simp only [List.append_assoc, List.mem_append, List.mem_cons, List.not_mem_nil, or_false] at hop
  rcases hop with h | ((h | h) | (h | (h | h)))
  · exact Or.inr (senseOps_shape _ _ h)
  · subst h; exact Or.inr rfl
  · subst h; exact Or.inr rfl
  · exact Or.inr (riseOps_shape _ _ h)
  · exact Or.inr (fallOps_shape _ _ h)
  · exact Or.inl (statusOpsFor_shape _ _ h)

/-- Every operation of the switch loop of `enable` is an `outputSwitch ... i 1`
SET for some device name. -/
lemma switchOnOps_shape (reg : Registry) (uchan : Option String) :
    ∀ op ∈ switchOnOps reg uchan,
      ∃ m, op = ⟨OpKind.set, ["outputSwitch." ++ m, "i", "1"]⟩ := by
  intro op h
  rw [switchOnOps, List.mem_map] at h
  obtain ⟨nc, -, rfl⟩ := h
  exact ⟨nc.2.mpod_name, rfl⟩

lemma getElem_append_mem_left {α : Type} (a b : List α) (i : ℕ)
    (hi : i < (a ++ b).length) (hlt : i < a.length) : (a ++ b)[i] ∈ a := by
  rw [List.getElem_append_left hlt]
  exact List.getElem_mem hlt

lemma getElem_append_mem_right {α : Type} (a b : List α) (j : ℕ)
    (hj : j < (a ++ b).length) (hge : a.length ≤ j) : (a ++ b)[j] ∈ b := by
  rw [List.getElem_append_right hge]
  exact List.getElem_mem (by rw [List.length_append] at hj; omega)

lemma enableOps_getElem_mem_configure (reg : Registry) (uchan : Option String) (i : ℕ)
    (hi : i < (enableOps reg uchan).length) (hlt : i < (configureOps reg uchan).length) :
    (enableOps reg uchan)[i] ∈ configureOps reg uchan :=
  getElem_append_mem_left (configureOps reg uchan) (switchOnOps reg uchan) i hi hlt

lemma enableOps_getElem_mem_switch (reg : Registry) (uchan : Option String) (j : ℕ)
    (hj : j < (enableOps reg uchan).length) (hge : (configureOps reg uchan).length ≤ j) :
    (enableOps reg uchan)[j] ∈ switchOnOps reg uchan :=
  getElem_append_mem_right (configureOps reg uchan) (switchOnOps reg uchan) j hj hge

/-- C1: for every registry and channel selector, in the operation log of
`enable` a channel's `outputSwitch = 1` SET never precedes any of that
channel's Configure SETs: if position `i` holds the on-switch SET of device
name `d` and position `j` holds one of `d`'s Configure SETs, then `j < i`. -/
theorem enable_switch_never_before_configure_sets
    (reg : Registry) (uchan : Option String) (d : String) (i j : ℕ)
    (hi : i < (enableOps reg uchan).length) (hj : j < (enableOps reg uchan).length)
    (hsw : (enableOps reg uchan)[i] = ⟨OpKind.set, ["outputSwitch." ++ d, "i", "1"]⟩)
    (hcf : ConfigSetFor d ((enableOps reg uchan)[j])) :
    j < i := by
  have hiGe : (configureOps reg uchan).length ≤ i := by
    by_contra hlt
    push_neg at hlt
    have hmem := enableOps_getElem_mem_configure reg uchan i hi hlt
    rcases configureOps_tag reg uchan _ hmem with hk | ht
    · rw [hsw] at hk
      have hk2 : OpKind.set = OpKind.get := hk
      exact absurd hk2 (by decide)
    · rw [hsw] at ht
      have ht2 : ("i" : String) = "F" := ht
      exact absurd ht2 (by decide)
  have hjLt : j < (configureOps reg uchan).length := by
    by_contra hge
    push_neg at hge
    have hmem := enableOps_getElem_mem_switch reg uchan j hj hge
    obtain ⟨m, hm⟩ := switchOnOps_shape reg uchan _ hmem
    obtain ⟨-, ht, -⟩ := hcf
    rw [hm] at ht
    have ht2 : ("i" : String) = "F" := ht
    exact absurd ht2 (by decide)
  omega

/-- Concrete registry used by several witnesses: one channel `lv0` on device
`u0`, 5 V, 2 A, no ramp rates, no sense rails. -/
def regW : Registry :=
  ⟨"LV", "8V", [("lv0", ⟨"u0", 5, 2, none, none, none⟩)]⟩

/-- Witness for C1: in `enable`'s log for `regW`, the on-switch SET sits at
position 11 and the target-voltage Configure SET at position 0. -/
theorem enable_switch_never_before_configure_sets_witness :
    ConfigSetFor "u0" ((enableOps regW none).get ⟨0, by decide⟩) ∧ (0 : ℕ) < 11 := by
  refine ⟨by decide, ?_⟩
  exact enable_switch_never_before_configure_sets regW none "u0" 11 0
    (by decide) (by decide) (by decide) (by decide)

/-- C3: for every channel whose `sense_rails` is set to a pair `[lo, hi]`,
the per-channel Configure sequence has the supervision-min SET at position 0,
the supervision-max SET right after it at position 1, and the target-voltage
SET only at position 2 — min before max, both strictly before the voltage
write. -/
theorem configure_sense_rails_before_voltage (c : Channel) (lo hi : ℚ)
    (hs : c.sense_rails = some [lo, hi]) :
    ∃ hl : 2 < (chanConfigOps c).length,
      (chanConfigOps c).get ⟨0, by omega⟩ =
        ⟨OpKind.set, ["outputSupervisionMinSenseVoltage." ++ c.mpod_name, "F", pyStr lo]⟩ ∧
      (chanConfigOps c).get ⟨1, by omega⟩ =
        ⟨OpKind.set, ["outputSupervisionMaxSenseVoltage." ++ c.mpod_name, "F", pyStr hi]⟩ ∧
      (chanConfigOps c).get ⟨2, hl⟩ =
        ⟨OpKind.set, ["outputVoltage." ++ c.mpod_name, "F", pyStr c.voltage]⟩ := by
  have hcc : chanConfigOps c =
      ⟨OpKind.set, ["outputSupervisionMinSenseVoltage." ++ c.mpod_name, "F", pyStr lo]⟩ ::
      ⟨OpKind.set, ["outputSupervisionMaxSenseVoltage." ++ c.mpod_name, "F", pyStr hi]⟩ ::
      ⟨OpKind.set, ["outputVoltage." ++ c.mpod_name, "F", pyStr c.voltage]⟩ ::
      ⟨OpKind.set, ["outputCurrent." ++ c.mpod_name, "F", pyStr c.current]⟩ ::
      (riseOps c ++ fallOps c ++ statusOpsFor c.mpod_name) := by
    rw [chanConfigOps]
    unfold senseOps
    rw [hs]
    simp
  refine ⟨by rw [hcc]; simp, ?_, ?_, ?_⟩ <;> simp [hcc]

/-- Channel used by the C3 witness: device `u104`, 7 V / 2 A, sense rails
7 to 8 V. -/
def cSense : Channel := ⟨"u104", 7, 2, none, none, some [7, 8]⟩

/-- Witness for C3 at the concrete channel `cSense`. -/
theorem configure_sense_rails_before_voltage_witness :
    cSense.sense_rails = some [7, 8] ∧
    ∃ hl : 2 < (chanConfigOps cSense).length,
      (chanConfigOps cSense).get ⟨0, by omega⟩ =
        ⟨OpKind.set, ["outputSupervisionMinSenseVoltage." ++ cSense.mpod_name, "F", pyStr 7]⟩ ∧
      (chanConfigOps cSense).get ⟨1, by omega⟩ =
        ⟨OpKind.set, ["outputSupervisionMaxSenseVoltage." ++ cSense.mpod_name, "F", pyStr 8]⟩ ∧
      (chanConfigOps cSense).get ⟨2, hl⟩ =
        ⟨OpKind.set, ["outputVoltage." ++ cSense.mpod_name, "F", pyStr cSense.voltage]⟩ :=
  ⟨rfl, configure_sense_rails_before_voltage cSense 7 8 rfl⟩

/-- `rise_rate` is absent or nonpositive, i.e. the source's emission guard
`channel.rise_rate is not None and channel.rise_rate > 0` is false. -/
def riseSkipped (c : Channel) : Prop :=
  match c.rise_rate with
  | none => True
  | some r => r ≤ 0

/-- `fall_rate` is absent or nonpositive. -/
def fallSkipped (c : Channel) : Prop :=
  match c.fall_rate with
  | none => True
  | some r => r ≤ 0

/-- `op` is a rise-rate SET addressed to channel `c`. -/
def isRiseSetFor (c : Channel) (op : SnmpOp) : Prop :=
  op.kind = OpKind.set ∧ op.args.getD 0 "" = "outputVoltageRiseRate." ++ c.mpod_name

/-- `op` is a fall-rate SET addressed to channel `c`. -/
def isFallSetFor (c : Channel) (op : SnmpOp) : Prop :=
  op.kind = OpKind.set ∧ op.args.getD 0 "" = "outputVoltageFallRate." ++ c.mpod_name

instance (c : Channel) (op : SnmpOp) : Decidable (isRiseSetFor c op) := by
  unfold isRiseSetFor; infer_instance

instance (c : Channel) (op : SnmpOp) : Decidable (isFallSetFor c op) := by
  unfold isFallSetFor; infer_instance

lemma strAppend_ne_of_ne (a b m : String) (h : a ≠ b) : a ++ m ≠ b ++ m := by
  intro hEq
  apply h
  apply String.ext
  have hd : a.data ++ m.data = b.data ++ m.data := by
    have := congrArg String.data hEq
    simpa [String.data_append] using this
  exact List.append_cancel_right hd

lemma senseOps_obj (c : Channel) :
    ∀ op ∈ senseOps c,
      op.args.getD 0 "" = "outputSupervisionMinSenseVoltage." ++ c.mpod_name ∨
      op.args.getD 0 "" = "outputSupervisionMaxSenseVoltage." ++ c.mpod_name := by
  intro op h
  unfold senseOps at h
  cases hs : c.sense_rails with
  | none => rw [hs] at h; simp at h
  | some rails =>
    rw [hs] at h
    simp only [List.mem_cons, List.not_mem_nil, or_false] at h
    rcases h with h | h <;> subst h
    · exact Or.inl rfl
    · exact Or.inr rfl

lemma riseOps_obj (c : Channel) :
    ∀ op ∈ riseOps c, op.args.getD 0 "" = "outputVoltageRiseRate." ++ c.mpod_name := by
  intro op h
  unfold riseOps at h
  cases hr : c.rise_rate with
  | none => rw [hr] at h; simp at h
  | some r =>
    rw [hr] at h
    by_cases hpos : r > 0
    · simp only [hpos, if_true, List.mem_singleton] at h
      subst h; rfl
    · simp only [hpos, if_false] at h
      simp at h

lemma fallOps_obj (c : Channel) :
    ∀ op ∈ fallOps c, op.args.getD 0 "" = "outputVoltageFallRate." ++ c.mpod_name := by
  intro op h
  unfold fallOps at h
  cases hr : c.fall_rate with
  | none => rw [hr] at h; simp at h
  | some r =>
    rw [hr] at h
    by_cases hpos : r > 0
    · simp only [hpos, if_true, List.mem_singleton] at h
      subst h; rfl
    · simp only [hpos, if_false] at h
      simp at h

lemma riseSkipped_nil (c : Channel) (h : riseSkipped c) : riseOps c = [] := by
  unfold riseSkipped at h
  unfold riseOps
  cases hr : c.rise_rate with
  | none => rfl
  | some r =>
    rw [hr] at h
    simp only [not_lt.mpr h, if_false]

lemma fallSkipped_nil (c : Channel) (h : fallSkipped c) : fallOps c = [] := by
  unfold fallSkipped at h
  unfold fallOps
  cases hr : c.fall_rate with
  | none => rfl
  | some r =>
    rw [hr] at h
    simp only [not_lt.mpr h, if_false]

/-- C7: for every channel, if `rise_rate` is absent or nonpositive then the
per-channel Configure sequence contains no rise-rate SET, and if `fall_rate`
is absent or nonpositive then it contains no fall-rate SET. -/
theorem configure_skips_nonpositive_ramp_rates (c : Channel) :
    (riseSkipped c → ∀ op ∈ chanConfigOps c, ¬ isRiseSetFor c op) ∧
    (fallSkipped c → ∀ op ∈ chanConfigOps c, ¬ isFallSetFor c op) := by
  constructor
  · intro hskip op hop hset
    obtain ⟨hkind, harg⟩ := hset
    rw [chanConfigOps] at hop
    simp only [List.append_assoc, List.mem_append, List.mem_cons, List.not_mem_nil,
      or_false] at hop
    rcases hop with h | ((h | h) | (h | (h | h)))
    · rcases senseOps_obj c op h with ho | ho <;> rw [ho] at harg
      · exact strAppend_ne_of_ne _ _ _ (by decide) harg.symm
      · exact strAppend_ne_of_ne _ _ _ (by decide) harg.symm
    · subst h
      exact strAppend_ne_of_ne "outputVoltage." "outputVoltageRiseRate." c.mpod_name
        (by decide) harg
    · subst h
      exact strAppend_ne_of_ne "outputCurrent." "outputVoltageRiseRate." c.mpod_name
        (by decide) harg
    · rw [riseSkipped_nil c hskip] at h
      simp at h
    · rw [fallOps_obj c op h] at harg
      exact strAppend_ne_of_ne _ _ _ (by decide) harg.symm
    · rw [statusOpsFor_shape c.mpod_name op h] at hkind
      exact absurd hkind (by decide)
  · intro hskip op hop hset
    obtain ⟨hkind, harg⟩ := hset
    rw [chanConfigOps] at hop
    simp only [List.append_assoc, List.mem_append, List.mem_cons, List.not_mem_nil,
      or_false] at hop
    rcases hop with h | ((h | h) | (h | (h | h)))
    · rcases senseOps_obj c op h with ho | ho <;> rw [ho] at harg
      · exact strAppend_ne_of_ne _ _ _ (by decide) harg.symm
      · exact strAppend_ne_of_ne _ _ _ (by decide) harg.symm
    · subst h
      exact strAppend_ne_of_ne "outputVoltage." "outputVoltageFallRate." c.mpod_name
        (by decide) harg
    · subst h
      exact strAppend_ne_of_ne "outputCurrent." "outputVoltageFallRate." c.mpod_name
        (by decide) harg
    · rw [riseOps_obj c op h] at harg
      exact strAppend_ne_of_ne _ _ _ (by decide) harg.symm
    · rw [fallSkipped_nil c hskip] at h
      simp at h
    · rw [statusOpsFor_shape c.mpod_name op h] at hkind
      exact absurd hkind (by decide)

/-- Channel used by the C7 witness: `rise_rate` absent, `fall_rate` = -1. -/
def cSkip : Channel := ⟨"u0", 5, 2, none, some (-1), none⟩

/-- Witness for C7: the first emitted op of `cSkip`'s Configure sequence is
neither a rise-rate nor a fall-rate SET. -/
theorem configure_skips_nonpositive_ramp_rates_witness :
    ¬ isRiseSetFor cSkip ((chanConfigOps cSkip).get ⟨0, by decide⟩) ∧
    ¬ isFallSetFor cSkip ((chanConfigOps cSkip).get ⟨0, by decide⟩) :=
  ⟨(configure_skips_nonpositive_ramp_rates cSkip).1 trivial _ (List.get_mem _ _ _),
   (configure_skips_nonpositive_ramp_rates cSkip).2 (show ((-1 : ℚ) ≤ 0) by norm_num) _
     (List.get_mem _ _ _)⟩

/-- C5, evaluated at the failing input (registry `regW`, one channel on device
`u0`): `disable` issues its SET with the whole text `outputSwitch.u0 i 0` as a
single argument string, not in the three-argument
`(object_name, type_tag, value)` form that `enable`'s switch-on SET uses. -/
theorem disable_passes_single_string_argument :
    disableOps regW none = [⟨OpKind.set, ["outputSwitch.u0 i 0"]⟩] ∧
    switchOnOps regW none = [⟨OpKind.set, ["outputSwitch.u0", "i", "1"]⟩] ∧
    disableOps regW none ≠ [⟨OpKind.set, ["outputSwitch.u0", "i", "0"]⟩] := by
  refine ⟨by decide, by decide, by decide⟩

/-- C2: for every registry and every channel selector, the sequence of
channels visited by `disable` is exactly the reverse of the sequence of
channels that `enable` or `configure` would visit for the same selector
(`configureOps` iterates `visited`, as does the switch loop of `enable`). -/
theorem disable_visits_reverse_of_enable (reg : Registry) (uchan : Option String) :
    disableVisited reg uchan = (visited reg uchan).reverse := by
  unfold disableVisited visited
  exact List.filter_reverse _ _

/-- Channel selection of `status(channel)`: with no argument, all channels;
with an argument, `{channel: self.channels[channel]}`, a lookup among the
LOGICAL names that raises `KeyError` when the key is unknown (modelled as
`Except.error`). -/
def statusChannels (reg : Registry) (channel : Option String) :
    Except String (List (String × Channel)) :=
  match channel with
  | none => Except.ok reg.channels
  | some ch =>
    match reg.channels.lookup ch with
    | some c => Except.ok [(ch, c)]
    | none => Except.error ("KeyError: " ++ ch)

lemma lookup_isSome_iff (l : List (String × Channel)) (a : String) :
    (l.lookup a).isSome = true ↔ a ∈ l.map (fun nc => nc.1) := by
  induction l with
  | nil => simp [List.lookup]
  | cons hd tl ih =>
    rcases hd with ⟨k, v⟩
    simp only [List.lookup, List.map_cons, List.mem_cons]
    by_cases h : a == k
    · have hk : a = k := by simpa using h
      simp [h, hk]
    · have hf : (a == k) = false := by simpa using h
      have hk : ¬ a = k := by simpa using h
      simp [hf, hk, ih]

/-- C10: the selector of `configure` / `enable` / `disable` is matched against
each channel's DEVICE name (`mpod_name`): a channel is visited iff its
`mpod_name` equals the selector, and a selector matching no device name makes
all three operations issue zero device operations (and return normally, these
log functions being total).  `status`, by contrast, looks its selector up
among the LOGICAL names and fails with a `KeyError` exactly when the name is
unknown. -/
theorem selector_device_name_matching (reg : Registry) (u : String) :
    ((u ∉ reg.channels.map (fun nc => nc.2.mpod_name)) →
      configureOps reg (some u) = [] ∧ enableOps reg (some u) = [] ∧
        disableOps reg (some u) = []) ∧
    (∀ nc, nc ∈ visited reg (some u) ↔ nc ∈ reg.channels ∧ nc.2.mpod_name = u) ∧
    ((statusChannels reg (some u)).isOk = true ↔ u ∈ reg.channels.map (fun nc => nc.1)) := by
  refine ⟨?_, ?_, ?_⟩
  · intro hno
    have hvis : visited reg (some u) = [] := by
      rw [visited, List.filter_eq_nil_iff]
      intro nc hnc hsel
      apply hno
      have : nc.2.mpod_name = u := by simpa [selects] using hsel
      exact this ▸ List.mem_map_of_mem (fun nc => nc.2.mpod_name) hnc
    have hvisR : disableVisited reg (some u) = [] := by
      rw [disableVisited, List.filter_eq_nil_iff]
      intro nc hnc hsel
      apply hno
      have hm : nc.2.mpod_name = u := by simpa [selects] using hsel
      exact hm ▸ List.mem_map_of_mem (fun nc => nc.2.mpod_name) (List.mem_reverse.mp hnc)
    refine ⟨?_, ?_, ?_⟩
    · rw [configureOps, hvis]; rfl
    · rw [enableOps, configureOps, switchOnOps, hvis]; rfl
    · rw [disableOps, hvisR]; rfl
  · intro nc
    simp [visited, List.mem_filter, selects]
  · have hok : (statusChannels reg (some u)).isOk = (reg.channels.lookup u).isSome := by
      rcases hl : reg.channels.lookup u with _ | c <;>
        simp [statusChannels, hl, Except.isOk, Except.toBool]
    rw [hok]
    exact lookup_isSome_iff reg.channels u

/-- Witness for C10: on `regW` the logical name `lv0` matches no device name,
so `configure` / `enable` / `disable` emit nothing; `status` of the unknown
logical name `zzz` fails. -/
theorem selector_device_name_matching_witness :
    (configureOps regW (some "lv0") = [] ∧ enableOps regW (some "lv0") = [] ∧
      disableOps regW (some "lv0") = []) ∧
    (statusChannels regW (some "zzz")).isOk = false := by
  refine ⟨(selector_device_name_matching regW "lv0").1 (by decide), ?_⟩
  have h := (selector_device_name_matching regW "zzz").2.2
  cases hok : (statusChannels regW (some "zzz")).isOk
  · rfl
  · exact absurd (h.mp hok) (by decide)

/-- One channel object of the JSON configuration document, before validation:
any of the keys may be absent (`none`).  `sense_rails` is an arbitrary JSON
number array. -/
structure ChannelDef where
  mpod_name : Option String
  voltage : Option ℚ
  current : Option ℚ
  rise_rate : Option ℚ
  fall_rate : Option ℚ
  sense_rails : Option (List ℚ)
deriving DecidableEq

/-- The parsed JSON configuration document `from_json` reads. -/
structure ConfigDoc where
  module_type : String
  voltage_range : String
  channels : List (String × ChannelDef)
deriving DecidableEq

/-- Python subscription `chan[key]`: the value if the key is present, else a
`KeyError` (modelled as `Except.error`). -/
def requireKey {α : Type} (key : String) (v : Option α) : Except String α :=
  match v with
  | some a => Except.ok a
  | none => Except.error ("KeyError: " ++ key)

/-- One iteration of the `from_json` channel loop: `chan["mpod_name"]`,
`chan["voltage"]` and `chan["current"]` raise `KeyError` when absent; the
other three keys are read with `chan.get(key, None)` and stored unchanged.
No value is validated. -/
def channelFromDef (d : ChannelDef) : Except String Channel := do
  let m ← requireKey "mpod_name" d.mpod_name
  let v ← requireKey "voltage" d.voltage
  let c ← requireKey "current" d.current
  Except.ok ⟨m, v, c, d.rise_rate, d.fall_rate, d.sense_rails⟩

/-- The `from_json` channel loop over `config["channels"].items()`, stopping
at the first `KeyError`. -/
def buildChannels : List (String × ChannelDef) → Except String (List (String × Channel))
  | [] => Except.ok []
  | (n, d) :: rest => do
    let c ← channelFromDef d
    let cs ← buildChannels rest
    Except.ok ((n, c) :: cs)

/-- `mpod_control.from_json`: build the registry from the parsed document.
A pure construction — it performs no transport operation. -/
def from_json (doc : ConfigDoc) : Except String Registry := do
  let cs ← buildChannels doc.channels
  Except.ok ⟨doc.module_type, doc.voltage_range, cs⟩

/-- The three keys `from_json` subscripts directly are present. -/
def requiredPresent (d : ChannelDef) : Prop :=
  d.mpod_name.isSome = true ∧ d.voltage.isSome = true ∧ d.current.isSome = true

instance (d : ChannelDef) : Decidable (requiredPresent d) := by
  unfold requiredPresent; infer_instance

lemma channelFromDef_ok_iff (d : ChannelDef) :
    (channelFromDef d).isOk = true ↔ requiredPresent d := by
  unfold channelFromDef requiredPresent
  rcases hm : d.mpod_name with _ | m <;> rcases hv : d.voltage with _ | v <;>
    rcases hc : d.current with _ | c <;>
    simp [requireKey, Except.isOk, Except.toBool, Except.bind, Bind.bind]

lemma buildChannels_ok_iff (l : List (String × ChannelDef)) :
    (buildChannels l).isOk = true ↔ ∀ nd ∈ l, requiredPresent nd.2 := by
  induction l with
  | nil => simp [buildChannels, Except.isOk, Except.toBool]
  | cons hd tl ih =>
    rcases hd with ⟨n, d⟩
    rw [buildChannels]
    rcases hcd : channelFromDef d with e | c
    · have hnp : ¬ requiredPresent d := by
        rw [← channelFromDef_ok_iff, hcd]
        simp [Except.isOk, Except.toBool]
      simp only [List.mem_cons, Except.bind, Bind.bind]
      constructor
      · intro hok
        exact absurd hok (by simp [Except.isOk, Except.toBool])
      · intro hall
        exact absurd (hall (n, d) (Or.inl rfl)) hnp
    · have hp : requiredPresent d := by
        rw [← channelFromDef_ok_iff, hcd]
        rfl
      rcases hbc : buildChannels tl with e2 | cs
      · rw [hbc] at ih
        simp only [Bind.bind, Except.bind, List.mem_cons]
        constructor
        · intro hok
          exact absurd hok (by simp [Except.isOk, Except.toBool])
        · intro hall
          have : ∀ nd ∈ tl, requiredPresent nd.2 := fun nd hnd => hall nd (Or.inr hnd)
          have hfalse := ih.mpr this
          exact absurd hfalse (by simp [Except.isOk, Except.toBool])
      · rw [hbc] at ih
        simp only [Bind.bind, Except.bind, List.mem_cons]
        constructor
        · intro _ nd hnd
          rcases hnd with rfl | hnd
          · exact hp
          · exact ih.mp (by simp [Except.isOk, Except.toBool]) nd hnd
        · intro _
          simp [Except.isOk, Except.toBool]

/-- C4 (amended): registry construction fails — with a `KeyError`, before any
device I/O (`from_json` emits no transport operation) — exactly when some
channel definition is missing `mpod_name`, `voltage` or `current`;
`sense_rails` is not validated at all, so malformed bounds (in particular a
lower bound greater than the upper) are accepted. -/
theorem from_json_ok_iff (doc : ConfigDoc) :
    (from_json doc).isOk = true ↔ ∀ nd ∈ doc.channels, requiredPresent nd.2 := by
  rw [← buildChannels_ok_iff]
  unfold from_json
  rcases hbc : buildChannels doc.channels with e | cs <;>
    simp [Bind.bind, Except.bind, Except.isOk, Except.toBool]

/-- Configuration document with an inverted `sense_rails` pair (5 > 1). -/
def docBadRails : ConfigDoc :=
  ⟨"LV", "8V", [("lv0", ⟨some "u0", some 5, some 2, none, none, some [5, 1]⟩)]⟩

/-- Counterexample for C4 as stated: constructing a registry from a definition
whose `sense_rails` lower bound (5) exceeds its upper bound (1) does NOT fail
with a `ConfigurationError` — no such validation (or exception class) exists
in the code, and `from_json` succeeds. -/
theorem from_json_accepts_inverted_sense_rails :
    (docBadRails.channels.get ⟨0, by decide⟩).2.sense_rails = some [5, 1] ∧
    (5 : ℚ) > 1 ∧
    (from_json docBadRails).isOk = true := by
  refine ⟨rfl, by norm_num, by decide⟩

/-- Document with a channel definition missing `current`. -/
def docNoCurrent : ConfigDoc :=
  ⟨"LV", "8V", [("lv0", ⟨some "u0", some 5, none, none, none, none⟩)]⟩

/-- Witness for the amended C4: the well-formed `docBadRails` constructs, and
dropping `current` makes construction fail. -/
theorem from_json_ok_iff_witness :
    (from_json docBadRails).isOk = true ∧ (from_json docNoCurrent).isOk = false := by
  constructor
  · exact (from_json_ok_iff docBadRails).mpr (by decide)
  · cases hok : (from_json docNoCurrent).isOk
    · rfl
    · have := (from_json_ok_iff docNoCurrent).mp hok
      exact absurd this (by decide)

/-- Python `out.split(':')` on the character list of `out`: split at every
colon, keeping empty segments; never returns an empty list. -/
def splitOnColon : List Char → List (List Char)
  | [] => [[]]
  | c :: rest =>
    match splitOnColon rest with
    | [] => [[]]
    | s :: ss => if c = ':' then [] :: s :: ss else (c :: s) :: ss

/-- Python `.strip()`: drop whitespace from both ends.  (`Char.isWhitespace`
covers space, tab, CR, LF — the whitespace appearing in snmpget replies.) -/
def stripChars (l : List Char) : List Char :=
  ((l.dropWhile Char.isWhitespace).reverse.dropWhile Char.isWhitespace).reverse

/-- `trim_snmpget_output`: `out.split(':')[-1].strip()` — the last
colon-separated segment, stripped. -/
def trim_snmpget_output (out : String) : String :=
  ⟨stripChars ((splitOnColon out.data).getLastD [])⟩

lemma splitOnColon_ne_nil (l : List Char) : splitOnColon l ≠ [] := by
  cases l with
  | nil => simp [splitOnColon]
  | cons c rest =>
    unfold splitOnColon
    cases h : splitOnColon rest with
    | nil => simp
    | cons s ss => by_cases hc : c = ':' <;> simp [hc]

lemma splitOnColon_no_colon (l : List Char) (h : ':' ∉ l) : splitOnColon l = [l] := by
  induction l with
  | nil => rfl
  | cons c rest ih =>
    rw [List.mem_cons, not_or] at h
    obtain ⟨h1, h2⟩ := h
    have hc : ¬ c = ':' := fun hh => h1 hh.symm
    unfold splitOnColon
    rw [ih h2]
    simp [hc]

lemma splitOnColon_append (pre post : List Char) (h : ':' ∉ post) :
    ∃ front, front ≠ [] ∧ splitOnColon (pre ++ ':' :: post) = front ++ [post] := by
  induction pre with
  | nil =>
    refine ⟨[[]], by simp, ?_⟩
    show splitOnColon (':' :: post) = [[]] ++ [post]
    unfold splitOnColon
    rw [splitOnColon_no_colon post h]
    simp
  | cons c pre ih =>
    obtain ⟨front, hne, heq⟩ := ih
    rcases front with _ | ⟨f0, fr⟩
    · exact absurd rfl hne
    · by_cases hc : c = ':'
      · refine ⟨[] :: f0 :: fr, by simp, ?_⟩
        show splitOnColon (c :: (pre ++ ':' :: post)) = ([] :: f0 :: fr) ++ [post]
        unfold splitOnColon
        rw [heq]
        simp [hc]
      · refine ⟨(c :: f0) :: fr, by simp, ?_⟩
        show splitOnColon (c :: (pre ++ ':' :: post)) = ((c :: f0) :: fr) ++ [post]
        unfold splitOnColon
        rw [heq]
        simp [hc]

/-- C6: normalization returns the substring after the last colon, stripped of
surrounding whitespace (whatever follows the colon — including a trailing
unit token — is kept verbatim); when the reply has no colon the whole text is
stripped; and the two documented replies normalize to `180.000000` and `1`. -/
theorem trim_takes_last_colon_segment :
    (∀ pre post : List Char, ':' ∉ post →
      trim_snmpget_output ⟨pre ++ ':' :: post⟩ = ⟨stripChars post⟩) ∧
    (∀ l : List Char, ':' ∉ l → trim_snmpget_output ⟨l⟩ = ⟨stripChars l⟩) ∧
    trim_snmpget_output "WIENER-CRATE-MIB::outputVoltage.u200 = F: 180.000000" =
      "180.000000" ∧
    trim_snmpget_output "WIENER-CRATE-MIB::outputSwitch.u0 = Opaque: INTEGER: 1" = "1" := by
  refine ⟨?_, ?_, by decide, by decide⟩
  · intro pre post h
    obtain ⟨front, hne, heq⟩ := splitOnColon_append pre post h
    show (⟨stripChars ((splitOnColon (pre ++ ':' :: post)).getLastD [])⟩ : String) =
      ⟨stripChars post⟩
    rw [heq, List.getLastD_concat]
  · intro l h
    show (⟨stripChars ((splitOnColon l).getLastD [])⟩ : String) = ⟨stripChars l⟩
    rw [splitOnColon_no_colon l h]
    rfl

/-- Witness for C6 at a concrete reply fragment with a unit token. -/
theorem trim_takes_last_colon_segment_witness :
    trim_snmpget_output ⟨"x".data ++ ':' :: " 5 V".data⟩ = ⟨stripChars " 5 V".data⟩ :=
  trim_takes_last_colon_segment.1 "x".data " 5 V".data (by decide)

/-- The transport-side state `_snmp_cmd` consults: the net-snmp install
directory, the optional MIBs directory and the crate IP (all read from the
environment in `__init__`). -/
structure RunCfg where
  net_snmp_install : String
  mibs_dir : Option String
  ip_address_crate : String
deriving DecidableEq

/-- The snmp program suffix (`snmpget` / `snmpset` / `snmpwalk`). -/
def kindName : OpKind → String
  | OpKind.get => "get"
  | OpKind.set => "set"
  | OpKind.walk => "walk"

/-- `permissions = 'public'`, overridden to `'guru'` for SET. -/
def permFor (k : OpKind) : String :=
  if k = OpKind.set then "guru" else "public"

/-- The argument vector `_snmp_cmd` constructs before the dry-run branch:
program path, `-v 2c`, optional `-M <mibs>`, `-m +WIENER-CRATE-MIB`,
`-c <community>`, crate IP, then the caller's arguments. -/
def buildCmd (cfg : RunCfg) (op : SnmpOp) : List String :=
  [cfg.net_snmp_install ++ "/bin/snmp" ++ kindName op.kind, "-v", "2c"] ++
  (match cfg.mibs_dir with
   | none => []
   | some d => ["-M", d]) ++
  ["-m", "+WIENER-CRATE-MIB", "-c", permFor op.kind, cfg.ip_address_crate] ++
  op.args

/-- What `_snmp_cmd` did with one constructed command: printed it (dry run)
or executed it through `subprocess.run` (real mode). -/
inductive Event
  | printed (cmd : List String)
  | executed (cmd : List String)
deriving DecidableEq

/-- The payload of a `subprocess.CalledProcessError` raised by
`check_returncode`. -/
structure TransportErr where
  cmd : List String
  returncode : ℤ
  stderr : String
deriving DecidableEq

def eventCmd : Event → List String
  | Event.printed c => c
  | Event.executed c => c

def isExecuted : Event → Bool
  | Event.printed _ => false
  | Event.executed _ => true

/-- Run a sequence of transport operations the way the Python control flow
does: each op goes through `_snmp_cmd` — in dry-run mode the command is
printed and `'did not run'` returned; in real mode the command is executed
and a non-zero exit raises, which aborts everything after it (no handler
exists between `_snmp_cmd` and the command boundary).  `oracle` models the
device's response per command.  The op sequence itself is data-independent
of the replies, so running the precomputed log is faithful. -/
def runOps (cfg : RunCfg) (dry : Bool) (oracle : List String → Except TransportErr String) :
    List SnmpOp → List Event × Option TransportErr
  | [] => ([], none)
  | op :: rest =>
    let cmd := buildCmd cfg op
    if dry then
      let r := runOps cfg dry oracle rest
      (Event.printed cmd :: r.1, r.2)
    else
      match oracle cmd with
      | Except.ok _ =>
        let r := runOps cfg dry oracle rest
        (Event.executed cmd :: r.1, r.2)
      | Except.error e => ([Event.executed cmd], some e)

lemma runOps_dry (cfg : RunCfg) (oracle : List String → Except TransportErr String)
    (ops : List SnmpOp) :
    runOps cfg true oracle ops = (ops.map (fun op => Event.printed (buildCmd cfg op)), none) := by
  induction ops with
  | nil => rfl
  | cons op rest ih => simp [runOps, ih]

lemma runOps_real_ok (cfg : RunCfg) (oracle : List String → Except TransportErr String)
    (hok : ∀ cmd, (oracle cmd).isOk = true) (ops : List SnmpOp) :
    runOps cfg false oracle ops =
      (ops.map (fun op => Event.executed (buildCmd cfg op)), none) := by
  induction ops with
  | nil => rfl
  | cons op rest ih =>
    rcases ho : oracle (buildCmd cfg op) with e | s
    · have := hok (buildCmd cfg op)
      rw [ho] at this
      exact absurd this (by simp [Except.isOk, Except.toBool])
    · simp [runOps, ho, ih]

/-- C9: in dry-run mode `enable` performs zero real transport executions, and
the printed command sequence is exactly, command for command, the sequence
real mode would execute (assuming the device answers every command) — the
sequencer's op log `enableOps` is one and the same in both modes, dry-run
living only inside the transport step. -/
theorem dry_run_enable_matches_real (cfg : RunCfg) (reg : Registry) (uchan : Option String)
    (oracle : List String → Except TransportErr String)
    (hok : ∀ cmd, (oracle cmd).isOk = true) :
    (runOps cfg true oracle (enableOps reg uchan)).1 =
      (enableOps reg uchan).map (fun op => Event.printed (buildCmd cfg op)) ∧
    (runOps cfg false oracle (enableOps reg uchan)).1 =
      (enableOps reg uchan).map (fun op => Event.executed (buildCmd cfg op)) ∧
    (runOps cfg true oracle (enableOps reg uchan)).1.countP (fun ev => isExecuted ev) = 0 ∧
    (runOps cfg true oracle (enableOps reg uchan)).1.length =
      (runOps cfg false oracle (enableOps reg uchan)).1.length ∧
    (runOps cfg true oracle (enableOps reg uchan)).1.map eventCmd =
      (runOps cfg false oracle (enableOps reg uchan)).1.map eventCmd := by
  have hd := runOps_dry cfg oracle (enableOps reg uchan)
  have hr := runOps_real_ok cfg oracle hok (enableOps reg uchan)
  refine ⟨by rw [hd], by rw [hr], ?_, ?_, ?_⟩
  · rw [hd]
    simp [List.countP_eq_zero, isExecuted]
  · rw [hd, hr]
    simp
  · rw [hd, hr]
    simp [eventCmd]

/-- Transport configuration used by witnesses: the source's defaults. -/
def cfgW : RunCfg := ⟨"/u1/ldmx/net-snmp-5.9.4/install", none, "192.168.10.50"⟩

/-- Two-channel registry (the spec's 2-channel example shape). -/
def regW2 : Registry :=
  ⟨"LV", "8V", [("a", ⟨"u0", 5, 2, none, none, none⟩), ("b", ⟨"u1", 5, 2, none, none, none⟩)]⟩

/-- Witness for C9 on the 2-channel registry with an always-answering device. -/
theorem dry_run_enable_matches_real_witness :
    (runOps cfgW true (fun _ => Except.ok "") (enableOps regW2 none)).1 =
      (enableOps regW2 none).map (fun op => Event.printed (buildCmd cfgW op)) ∧
    (runOps cfgW false (fun _ => Except.ok "") (enableOps regW2 none)).1 =
      (enableOps regW2 none).map (fun op => Event.executed (buildCmd cfgW op)) ∧
    (runOps cfgW true (fun _ => Except.ok "") (enableOps regW2 none)).1.countP
      (fun ev => isExecuted ev) = 0 ∧
    (runOps cfgW true (fun _ => Except.ok "") (enableOps regW2 none)).1.length =
      (runOps cfgW false (fun _ => Except.ok "") (enableOps regW2 none)).1.length ∧
    (runOps cfgW true (fun _ => Except.ok "") (enableOps regW2 none)).1.map eventCmd =
      (runOps cfgW false (fun _ => Except.ok "") (enableOps regW2 none)).1.map eventCmd :=
  dry_run_enable_matches_real cfgW regW2 none (fun _ => Except.ok "") (fun _ => rfl)

lemma runOps_real_fail (cfg : RunCfg) (oracle : List String → Except TransportErr String)
    (e : TransportErr) :
    ∀ (ops : List SnmpOp) (j : ℕ) (hj : j < ops.length),
      (∀ op ∈ ops.take j, (oracle (buildCmd cfg op)).isOk = true) →
      oracle (buildCmd cfg (ops.get ⟨j, hj⟩)) = Except.error e →
      runOps cfg false oracle ops =
        ((ops.take (j + 1)).map (fun op => Event.executed (buildCmd cfg op)), some e) := by
  intro ops
  induction ops with
  | nil => intro j hj; simp at hj
  | cons op rest ih =>
    intro j hj hok hfail
    cases j with
    | zero =>
      have hf : oracle (buildCmd cfg op) = Except.error e := hfail
      simp [runOps, hf]
    | succ j =>
      have hhd : (oracle (buildCmd cfg op)).isOk = true :=
        hok op (by simp [List.take_succ_cons])
      rcases ho : oracle (buildCmd cfg op) with e2 | s
      · rw [ho] at hhd
        exact absurd hhd (by simp [Except.isOk, Except.toBool])
      · have htl : ∀ o ∈ rest.take j, (oracle (buildCmd cfg o)).isOk = true := by
          intro o hmem
          exact hok o (by simp [List.take_succ_cons, hmem])
        have hjr : j < rest.length := by simpa using hj
        have hfr : oracle (buildCmd cfg (rest.get ⟨j, hjr⟩)) = Except.error e := hfail
        have := ih j hjr htl hfr
        simp [runOps, ho, this, List.take_succ_cons]

/-- C8 (amended): during `configure` in real mode, if the transport call at
position `j` of the emitted sequence fails (all earlier ones succeeding), the
run executes exactly the first `j + 1` commands and stops with that error —
the remaining steps of the failing channel are skipped, previously applied
SETs are NOT rolled back (the trace stays a plain executed prefix), and the
error also aborts every subsequent channel of the selection. -/
theorem configure_failure_aborts_batch (cfg : RunCfg) (reg : Registry)
    (uchan : Option String) (oracle : List String → Except TransportErr String)
    (e : TransportErr) (j : ℕ) (hj : j < (configureOps reg uchan).length)
    (hok : ∀ op ∈ (configureOps reg uchan).take j, (oracle (buildCmd cfg op)).isOk = true)
    (hfail : oracle (buildCmd cfg ((configureOps reg uchan).get ⟨j, hj⟩)) = Except.error e) :
    runOps cfg false oracle (configureOps reg uchan) =
      (((configureOps reg uchan).take (j + 1)).map
        (fun op => Event.executed (buildCmd cfg op)), some e) :=
  runOps_real_fail cfg oracle e (configureOps reg uchan) j hj hok hfail

/-- Error payload used by the C8 theorems. -/
def errW : TransportErr := ⟨[], 1, "timeout"⟩

/-- Witness for the amended C8: on `regW`, a device failing the very first
command makes `configure` stop after exactly that one executed command. -/
theorem configure_failure_aborts_batch_witness :
    runOps cfgW false (fun _ => Except.error errW) (configureOps regW none) =
      (((configureOps regW none).take 1).map
        (fun op => Event.executed (buildCmd cfgW op)), some errW) :=
  configure_failure_aborts_batch cfgW regW none (fun _ => Except.error errW) errW 0
    (by decide) (by decide) rfl

/-- Counterexample for C8 as stated: on the two-channel registry `regW2` with
the device failing the first command of channel `a`, channel `b` is NOT
processed — its `outputVoltage.u1` SET occurs in `configure`'s op list but no
executed command mentions it, refuting "the failure does not prevent
processing of the subsequent channels in the selection". -/
theorem configure_failure_stops_subsequent_channels :
    ((runOps cfgW false (fun _ => Except.error errW) (configureOps regW2 none)).1.countP
      (fun ev => (eventCmd ev).contains "outputVoltage.u1")) = 0 ∧
    ((configureOps regW2 none).countP
      (fun op => op.kind == OpKind.set && op.args.contains "outputVoltage.u1")) = 1 ∧
    (runOps cfgW false (fun _ => Except.error errW) (configureOps regW2 none)).1.length = 1 ∧
    (runOps cfgW false (fun _ => Except.error errW) (configureOps regW2 none)).2 =
      some errW := by
  refine ⟨by decide, by decide, by decide, by decide⟩

end Mpod
